import Mathlib

/-!
# Verification of the flvparse FLV container decoder

A shallow embedding of the FLV parsing engine (`src/flv_parser.rs` and the
`src/parse/` module revision) in Lean 4, together with theorems settling the
frozen claims about it.

Modelling conventions:
* A byte buffer is a `List Nat` (each element one byte of the input).
* nom's `IResult<&[u8], T>` is modelled by `PRes T`: either `ok rest val`
  (remaining input plus the parsed value) or `err e` where `e` distinguishes
  nom's recoverable `Err::Error` from `Err::Incomplete` (streaming: not enough
  bytes).  No combinator used by this code base ever produces `Err::Failure`,
  so it is not modelled.
* `f64` values are never interpreted arithmetically by the parser: `be_f64`
  only reassembles 8 big-endian bytes into a bit pattern, which we keep as a
  `Nat`.
* Rust strings are kept as their byte lists; `str::from_utf8` becomes the
  `is_valid_utf8` check below.
-/

set_option maxRecDepth 8000

abbrev Bytes := List Nat

/-- nom error model: `incomplete n` is `Err::Incomplete(Needed::Size(n))`,
`error` is any recoverable `Err::Error(_)`. -/
inductive PError where
  | incomplete (needed : Nat)
  | error
  deriving DecidableEq, Repr

/-- nom `IResult<&[u8], α>`: remaining input plus value, or an error. -/
inductive PRes (α : Type) where
  | ok (rest : Bytes) (val : α)
  | err (e : PError)
  deriving DecidableEq, Repr

/-- Big-endian reassembly of a byte list into one unsigned integer. -/
def bytes_to_nat (l : Bytes) : Nat := l.foldl (fun a b => a * 256 + b) 0

/-- nom `be_u8` (streaming): one byte. -/
def be_u8 (input : Bytes) : PRes Nat :=
  match input with
  | [] => .err (.incomplete 1)
  | b :: r => .ok r b

/-- nom `be_u16`/`be_u24`/`be_u32`/`be_f64` (streaming): `k` big-endian bytes
reassembled into an unsigned value (for `be_f64`, the raw bit pattern). -/
def be_bytes (k : Nat) (input : Bytes) : PRes Nat :=
  if k ≤ input.length then .ok (input.drop k) (bytes_to_nat (input.take k))
  else .err (.incomplete k)

/-- Two's-complement reading of a 16-bit value, for nom `be_i16`. -/
def to_i16 (n : Nat) : Int :=
  if n < 32768 then (n : Int) else (n : Int) - 65536

/-- nom `tag!(pattern)` (streaming): match a fixed byte pattern.  If the input
is shorter than the pattern, nom compares the available prefix and reports
`Incomplete` when it matches so far, `Error` otherwise. -/
def tag_pattern (pat : Bytes) (input : Bytes) : PRes Bytes :=
  if pat.length ≤ input.length then
    if input.take pat.length = pat then .ok (input.drop pat.length) pat
    else .err .error
  else
    if input = pat.take input.length then .err (.incomplete pat.length)
    else .err .error

/-- Is `b` a UTF-8 continuation byte (`0x80..=0xBF`)? -/
def utf8_cont (b : Nat) : Bool := 128 ≤ b && b ≤ 191

/-- Validity of a byte list as UTF-8, mirroring Rust's `str::from_utf8`
(`core::str::validations::run_utf8_validation`): rejects overlong encodings,
surrogates and code points above U+10FFFF. -/
def is_valid_utf8 : Bytes → Bool
  | [] => true
  | b :: rest =>
    if b ≤ 0x7F then is_valid_utf8 rest
    else if 0xC2 ≤ b && b ≤ 0xDF then
      match rest with
      | c1 :: r => utf8_cont c1 && is_valid_utf8 r
      | [] => false
    else if b = 0xE0 then
      match rest with
      | c1 :: c2 :: r => (0xA0 ≤ c1 && c1 ≤ 0xBF) && utf8_cont c2 && is_valid_utf8 r
      | _ => false
    else if (0xE1 ≤ b && b ≤ 0xEC) || b = 0xEE || b = 0xEF then
      match rest with
      | c1 :: c2 :: r => utf8_cont c1 && utf8_cont c2 && is_valid_utf8 r
      | _ => false
    else if b = 0xED then
      match rest with
      | c1 :: c2 :: r => (0x80 ≤ c1 && c1 ≤ 0x9F) && utf8_cont c2 && is_valid_utf8 r
      | _ => false
    else if b = 0xF0 then
      match rest with
      | c1 :: c2 :: c3 :: r => (0x90 ≤ c1 && c1 ≤ 0xBF) && utf8_cont c2 && utf8_cont c3 && is_valid_utf8 r
      | _ => false
    else if 0xF1 ≤ b && b ≤ 0xF3 then
      match rest with
      | c1 :: c2 :: c3 :: r => utf8_cont c1 && utf8_cont c2 && utf8_cont c3 && is_valid_utf8 r
      | _ => false
    else if b = 0xF4 then
      match rest with
      | c1 :: c2 :: c3 :: r => (0x80 ≤ c1 && c1 ≤ 0x8F) && utf8_cont c2 && utf8_cont c3 && is_valid_utf8 r
      | _ => false
    else false

/-! ## FLV file header (`flv_file_header`) -/

/-- `FLVFileHeader` from `src/flv_parser.rs`. -/
structure FLVFileHeader where
  signature : Bytes
  version : Nat
  flags : Nat
  has_audio : Bool
  has_video : Bool
  data_offset : Nat
  deriving DecidableEq, Repr

/-- `static FLV_HEADER_SIGNATURE: &[u8] = &[0x46, 0x4c, 0x56]`. -/
def FLV_HEADER_SIGNATURE : Bytes := [0x46, 0x4c, 0x56]

/-- `flv_file_header`: signature tag, version byte, flags byte, 4-byte
big-endian data offset; `has_audio`/`has_video` derived via bitmasks
`flags & 4 == 4` and `flags & 1 == 1`. -/
def flv_file_header (input : Bytes) : PRes FLVFileHeader :=
  match tag_pattern FLV_HEADER_SIGNATURE input with
  | .err e => .err e
  | .ok r1 _ =>
    match be_u8 r1 with
    | .err e => .err e
    | .ok r2 version =>
      match be_u8 r2 with
      | .err e => .err e
      | .ok r3 flags =>
        match be_bytes 4 r3 with
        | .err e => .err e
        | .ok r4 data_offset =>
          .ok r4 {
            signature := [0x46, 0x4c, 0x56],
            version := version,
            flags := flags,
            has_audio := flags &&& 4 == 4,
            has_video := flags &&& 1 == 1,
            data_offset := data_offset }

/-! ## FLV tag header (`flv_tag_header`) -/

/-- `FLVTagType`: audio = 8, video = 9, script = 18. -/
inductive FLVTagType where
  | Audio
  | Video
  | Script
  deriving DecidableEq, Repr

/-- `FLVTagHeader` from `src/flv_parser.rs`. -/
structure FLVTagHeader where
  tag_type : FLVTagType
  data_size : Nat
  timestamp : Nat
  stream_id : Nat
  deriving DecidableEq, Repr

/-- `flv_tag_header`: `switch!(be_u8, 8|9|18)`, 3-byte data size, 3-byte
timestamp, 1-byte timestamp extension, 3-byte stream id.  The timestamp is
`(u32::from(timestamp_extended) << 24) + timestamp` in `u32` arithmetic,
hence the `% 2 ^ 32`. -/
def flv_tag_header (input : Bytes) : PRes FLVTagHeader :=
  match be_u8 input with
  | .err e => .err e
  | .ok r0 t =>
    match (match t with
           | 8 => some FLVTagType.Audio
           | 9 => some FLVTagType.Video
           | 18 => some FLVTagType.Script
           | _ => none) with
    | none => .err .error
    | some tag_type =>
      match be_bytes 3 r0 with
      | .err e => .err e
      | .ok r1 data_size =>
        match be_bytes 3 r1 with
        | .err e => .err e
        | .ok r2 timestamp =>
          match be_u8 r2 with
          | .err e => .err e
          | .ok r3 timestamp_extended =>
            match be_bytes 3 r3 with
            | .err e => .err e
            | .ok r4 stream_id =>
              .ok r4 {
                tag_type := tag_type,
                data_size := data_size,
                timestamp := (timestamp_extended * 2 ^ 24 + timestamp) % 2 ^ 32,
                stream_id := stream_id }

/-! ## Audio tag (`audio_tag`, `audio_tag_header`, `audio_tag_body`) -/

/-- `SoundFormat`: 14 named values; nibbles 12 and 13 are unmapped. -/
inductive SoundFormat where
  | PcmPlatformEndian
  | ADPCM
  | MP3
  | PcmLittleEndian
  | Nellymoser16kHzMono
  | Nellymoser8kHzMono
  | Nellymoser
  | PcmALaw
  | PcmMuLaw
  | Reserved
  | AAC
  | Speex
  | MP3_8kHz
  | DeviceSpecific
  deriving DecidableEq, Repr

/-- `SoundRate`: all four 2-bit values are mapped. -/
inductive SoundRate where
  | _5_5KHZ
  | _11KHZ
  | _22KHZ
  | _44KHZ
  deriving DecidableEq, Repr

inductive SoundSize where
  | _8Bit
  | _16Bit
  deriving DecidableEq, Repr

inductive SoundType where
  | Mono
  | Stereo
  deriving DecidableEq, Repr

structure AudioTagHeader where
  sound_format : SoundFormat
  sound_rate : SoundRate
  sound_size : SoundSize
  sound_type : SoundType
  deriving DecidableEq, Repr

/-- The `switch!(take_bits!(u8, 4), 0..11|14|15)` arm table of
`audio_tag_header`; nibbles 12, 13 (and impossible values ≥ 16) hit no arm. -/
def sound_format_of_nibble (n : Nat) : Option SoundFormat :=
  match n with
  | 0 => some .PcmPlatformEndian
  | 1 => some .ADPCM
  | 2 => some .MP3
  | 3 => some .PcmLittleEndian
  | 4 => some .Nellymoser16kHzMono
  | 5 => some .Nellymoser8kHzMono
  | 6 => some .Nellymoser
  | 7 => some .PcmALaw
  | 8 => some .PcmMuLaw
  | 9 => some .Reserved
  | 10 => some .AAC
  | 11 => some .Speex
  | 14 => some .MP3_8kHz
  | 15 => some .DeviceSpecific
  | _ => none

/-- The `switch!(take_bits!(u8, 2))` table: total on the 2-bit domain. -/
def sound_rate_of_bits (n : Nat) : SoundRate :=
  match n with
  | 0 => ._5_5KHZ
  | 1 => ._11KHZ
  | 2 => ._22KHZ
  | _ => ._44KHZ

def sound_size_of_bit (n : Nat) : SoundSize :=
  match n with
  | 0 => ._8Bit
  | _ => ._16Bit

def sound_type_of_bit (n : Nat) : SoundType :=
  match n with
  | 0 => .Mono
  | _ => .Stereo

/-- `audio_tag_header`: rejects `size < 1` with `Incomplete(Needed::Size(1))`,
then reads one byte as bit fields 4+2+1+1 (`bits!(tuple!(...))`; an empty
input is an `Incomplete` from the bit parser). -/
def audio_tag_header (input : Bytes) (size : Nat) : PRes AudioTagHeader :=
  if size < 1 then .err (.incomplete 1)
  else
    match input with
    | [] => .err (.incomplete 1)
    | b :: r =>
      match sound_format_of_nibble (b / 16 % 16) with
      | none => .err .error
      | some fmt =>
        .ok r {
          sound_format := fmt,
          sound_rate := sound_rate_of_bits (b / 4 % 4),
          sound_size := sound_size_of_bit (b / 2 % 2),
          sound_type := sound_type_of_bit (b % 2) }

structure AudioTagBody where
  data : Bytes
  deriving DecidableEq, Repr

/-- `audio_tag_body`: takes exactly `size` bytes. -/
def audio_tag_body (input : Bytes) (size : Nat) : PRes AudioTagBody :=
  if input.length < size then .err (.incomplete size)
  else .ok (input.drop size) { data := input.take size }

structure AudioTag where
  header : AudioTagHeader
  body : AudioTagBody
  deriving DecidableEq, Repr

/-- `audio_tag`: header, then a body of `size - 1` bytes. -/
def audio_tag (input : Bytes) (size : Nat) : PRes AudioTag :=
  match audio_tag_header input size with
  | .err e => .err e
  | .ok r1 header =>
    match audio_tag_body r1 (size - 1) with
    | .err e => .err e
    | .ok r2 body => .ok r2 { header := header, body := body }

/-! ## Video tag (`video_tag`, `video_tag_header`, `video_tag_body`) -/

/-- `FrameType`: 1–5 named, everything else the sentinel `Unknown`. -/
inductive FrameType where
  | Key
  | Inter
  | DisposableInter
  | Generated
  | Command
  | Unknown
  deriving DecidableEq, Repr

/-- `CodecID`: 2–7 named, everything else the sentinel `Unknown`. -/
inductive CodecID where
  | SorensonH263
  | Screen1
  | VP6
  | VP6Alpha
  | Screen2
  | AVC
  | Unknown
  deriving DecidableEq, Repr

/-- The frame-type `switch!` table with its `_ => Unknown` catch-all. -/
def frame_type_of_nibble (n : Nat) : FrameType :=
  match n with
  | 1 => .Key
  | 2 => .Inter
  | 3 => .DisposableInter
  | 4 => .Generated
  | 5 => .Command
  | _ => .Unknown

/-- The codec-id `switch!` table with its `_ => Unknown` catch-all. -/
def codec_id_of_nibble (n : Nat) : CodecID :=
  match n with
  | 2 => .SorensonH263
  | 3 => .Screen1
  | 4 => .VP6
  | 5 => .VP6Alpha
  | 6 => .Screen2
  | 7 => .AVC
  | _ => .Unknown

structure VideoTagHeader where
  frame_type : FrameType
  codec_id : CodecID
  deriving DecidableEq, Repr

/-- `video_tag_header`: rejects `size < 1`, then reads one byte as two 4-bit
fields, both with catch-all arms. -/
def video_tag_header (input : Bytes) (size : Nat) : PRes VideoTagHeader :=
  if size < 1 then .err (.incomplete 1)
  else
    match input with
    | [] => .err (.incomplete 1)
    | b :: r =>
      .ok r {
        frame_type := frame_type_of_nibble (b / 16 % 16),
        codec_id := codec_id_of_nibble (b % 16) }

structure VideoTagBody where
  data : Bytes
  deriving DecidableEq, Repr

/-- `video_tag_body`: takes exactly `size` bytes. -/
def video_tag_body (input : Bytes) (size : Nat) : PRes VideoTagBody :=
  if input.length < size then .err (.incomplete size)
  else .ok (input.drop size) { data := input.take size }

structure VideoTag where
  header : VideoTagHeader
  body : VideoTagBody
  deriving DecidableEq, Repr

/-- `video_tag`: header, then a body of `size - 1` bytes. -/
def video_tag (input : Bytes) (size : Nat) : PRes VideoTag :=
  match video_tag_header input size with
  | .err e => .err e
  | .ok r1 header =>
    match video_tag_body r1 (size - 1) with
    | .err e => .err e
    | .ok r2 body => .ok r2 { header := header, body := body }

/-! ## Script data values (`script_data_*`) -/

/-- `script_data_number`: `be_f64`, kept as the raw 8-byte bit pattern. -/
def script_data_number (input : Bytes) : PRes Nat := be_bytes 8 input

/-- `script_data_boolean`: `be_u8`. -/
def script_data_boolean (input : Bytes) : PRes Nat := be_u8 input

/-- `script_data_reference`: `be_u16`. -/
def script_data_reference (input : Bytes) : PRes Nat := be_bytes 2 input

/-- `script_data_string`: `map_res!(length_bytes!(be_u16), str::from_utf8)` —
a 2-byte big-endian length, that many bytes, validated as UTF-8 (a recoverable
`Error` on invalid UTF-8). -/
def script_data_string (input : Bytes) : PRes Bytes :=
  match be_bytes 2 input with
  | .err e => .err e
  | .ok r len =>
    if len ≤ r.length then
      if is_valid_utf8 (r.take len) then .ok (r.drop len) (r.take len)
      else .err .error
    else .err (.incomplete len)

/-- `script_data_long_string`: same as `script_data_string` with a 4-byte
length prefix. -/
def script_data_long_string (input : Bytes) : PRes Bytes :=
  match be_bytes 4 input with
  | .err e => .err e
  | .ok r len =>
    if len ≤ r.length then
      if is_valid_utf8 (r.take len) then .ok (r.drop len) (r.take len)
      else .err .error
    else .err (.incomplete len)

/-- `static OBJECT_END_MARKER: &[u8] = &[0x00, 0x00, 0x09]`. -/
def OBJECT_END_MARKER : Bytes := [0x00, 0x00, 0x09]

/-- `script_data_object_end_marker`: `tag!(OBJECT_END_MARKER)`. -/
def script_data_object_end_marker (input : Bytes) : PRes Bytes :=
  tag_pattern OBJECT_END_MARKER input

/-- `ScriptDataDate`: f64 bit pattern for the epoch milliseconds, signed
16-bit timezone offset in minutes. -/
structure ScriptDataDate where
  date_time : Nat
  local_date_time_offset : Int
  deriving DecidableEq, Repr

/-- `script_data_date`: `be_f64` then `be_i16`. -/
def script_data_date (input : Bytes) : PRes ScriptDataDate :=
  match be_bytes 8 input with
  | .err e => .err e
  | .ok r date_time =>
    match be_bytes 2 r with
    | .err e => .err e
    | .ok r2 offset => .ok r2 { date_time := date_time, local_date_time_offset := to_i16 offset }

mutual

/-- `ScriptDataValue` from `src/parse/script.rs`. -/
inductive ScriptDataValue where
  | Number (bits : Nat)
  | Boolean (b : Bool)
  | String (s : Bytes)
  | Object (props : List ScriptDataObjectProperty)
  | MovieClip
  | Null
  | Undefined
  | Reference (r : Nat)
  | ECMAArray (props : List ScriptDataObjectProperty)
  | StrictArray (values : List ScriptDataValue)
  | Date (d : ScriptDataDate)
  | LongString (s : Bytes)

/-- `ScriptDataObjectProperty`: a `{name, value}` pair. -/
inductive ScriptDataObjectProperty where
  | mk (property_name : Bytes) (property_data : ScriptDataValue)

end

def ScriptDataObjectProperty.property_name : ScriptDataObjectProperty → Bytes
  | .mk n _ => n

def ScriptDataObjectProperty.property_data : ScriptDataObjectProperty → ScriptDataValue
  | .mk _ v => v

theorem be_bytes_length {k : Nat} {input rest : Bytes} {v : Nat}
    (h : be_bytes k input = .ok rest v) :
    rest = input.drop k ∧ k ≤ input.length := by
  unfold be_bytes at h
  split at h
  · cases h; exact ⟨rfl, by assumption⟩
  · cases h

theorem script_data_string_length {input rest s : Bytes}
    (h : script_data_string input = .ok rest s) :
    rest.length + 2 ≤ input.length := by
  unfold script_data_string at h
  cases hb : be_bytes 2 input with
  | err e => rw [hb] at h; simp at h
  | ok r len =>
    rw [hb] at h
    dsimp only at h
    obtain ⟨hr, hk⟩ := be_bytes_length hb
    by_cases hle : len ≤ r.length
    · rw [if_pos hle] at h
      by_cases hv : is_valid_utf8 (r.take len) = true
      · rw [if_pos hv] at h
        cases h
        have h1 : (r.drop len).length ≤ r.length := by
          simp [List.length_drop]
        have h2 : r.length + 2 = input.length := by
          subst hr; simp [List.length_drop]; omega
        omega
      · rw [if_neg hv] at h; cases h
    · rw [if_neg hle] at h; cases h

mutual

/-- `script_data_value`: one type byte, then `switch!` dispatch over the
twelve value grammars; any other type byte hits no arm (recoverable error). -/
def script_data_value (input : Bytes) : PRes ScriptDataValue :=
  match input with
  | [] => .err (.incomplete 1)
  | t :: r =>
    match t with
    | 0 =>
      match script_data_number r with
      | .ok r2 bits => .ok r2 (.Number bits)
      | .err e => .err e
    | 1 =>
      match script_data_boolean r with
      | .ok r2 v => .ok r2 (.Boolean (v != 0))
      | .err e => .err e
    | 2 =>
      match script_data_string r with
      | .ok r2 s => .ok r2 (.String s)
      | .err e => .err e
    | 3 =>
      match script_data_object r with
      | .ok r2 props => .ok r2 (.Object props)
      | .err e => .err e
    | 4 => .ok r .MovieClip
    | 5 => .ok r .Null
    | 6 => .ok r .Undefined
    | 7 =>
      match script_data_reference r with
      | .ok r2 v => .ok r2 (.Reference v)
      | .err e => .err e
    | 8 =>
      match script_data_ecma_array r with
      | .ok r2 props => .ok r2 (.ECMAArray props)
      | .err e => .err e
    | 10 =>
      match script_data_strict_array r with
      | .ok r2 vs => .ok r2 (.StrictArray vs)
      | .err e => .err e
    | 11 =>
      match script_data_date r with
      | .ok r2 d => .ok r2 (.Date d)
      | .err e => .err e
    | 12 =>
      match script_data_long_string r with
      | .ok r2 s => .ok r2 (.LongString s)
      | .err e => .err e
    | _ => .err .error
termination_by (input.length, 0, 0)

/-- `script_data_object_property`: a string name followed by a value. -/
def script_data_object_property (input : Bytes) : PRes ScriptDataObjectProperty :=
  match hs : script_data_string input with
  | .err e => .err e
  | .ok r1 name =>
    match script_data_value r1 with
    | .err e => .err e
    | .ok r2 value => .ok r2 (.mk name value)
termination_by (input.length, 1, 0)
decreasing_by
  have h2 := script_data_string_length hs
  simp_wf
  first
  | exact Prod.Lex.left _ _ (by omega)
  | omega

/-- The `many0!(script_data_object_property)` loop inside
`script_data_object` and `script_data_ecma_array`: a recoverable `Error` from
the property parser ends the loop, an `Incomplete` propagates, and nom's
zero-consumption check (`i1 == i` giving `ErrorKind::Many0`) is the
`else` branch of the guard. -/
def script_data_object_properties (input : Bytes) : PRes (List ScriptDataObjectProperty) :=
  match script_data_object_property input with
  | .err (.incomplete n) => .err (.incomplete n)
  | .err .error => .ok input []
  | .ok rest p =>
    if _h : rest.length < input.length then
      match script_data_object_properties rest with
      | .ok r2 ps => .ok r2 (p :: ps)
      | .err e => .err e
    else .err .error
termination_by (input.length, 2, 0)

/-- `script_data_object`: `terminated!(many0!(script_data_object_property),
script_data_object_end_marker)`. -/
def script_data_object (input : Bytes) : PRes (List ScriptDataObjectProperty) :=
  match script_data_object_properties input with
  | .err e => .err e
  | .ok r props =>
    match script_data_object_end_marker r with
    | .err e => .err e
    | .ok r2 _ => .ok r2 props
termination_by (input.length, 3, 0)

/-- `script_data_ecma_array`: a 4-byte advisory length that is read but never
used, then the same property list and end marker as `script_data_object`. -/
def script_data_ecma_array (input : Bytes) : PRes (List ScriptDataObjectProperty) :=
  match hb : be_bytes 4 input with
  | .err e => .err e
  | .ok r _length =>
    match script_data_object_properties r with
    | .err e => .err e
    | .ok r2 props =>
      match script_data_object_end_marker r2 with
      | .err e => .err e
      | .ok r3 _ => .ok r3 props
termination_by (input.length, 3, 0)
decreasing_by
  obtain ⟨h1, h2⟩ := be_bytes_length hb
  simp_wf
  subst h1
  first
  | exact Prod.Lex.left _ _ (by simp [List.length_drop]; omega)
  | (simp [List.length_drop]; omega)

/-- `script_data_strict_array`: a 4-byte length `N`, then `count!` of exactly
`N` values with no terminator. -/
def script_data_strict_array (input : Bytes) : PRes (List ScriptDataValue) :=
  match hb : be_bytes 4 input with
  | .err e => .err e
  | .ok r len =>
    match script_data_value_count len r with
    | .ok r2 vs => .ok r2 vs
    | .err e => .err e
termination_by (input.length, 3, 0)
decreasing_by
  obtain ⟨h1, h2⟩ := be_bytes_length hb
  simp_wf
  subst h1
  first
  | exact Prod.Lex.left _ _ (by simp [List.length_drop]; omega)
  | (simp [List.length_drop]; omega)

/-- nom `count!(script_data_value, c)`: exactly `c` values, every error
propagating.  The `else` branch of the guard is a termination artifact only:
it is unreachable because a value always consumes at least its type byte
(`script_data_value_consumed` below). -/
def script_data_value_count (c : Nat) (input : Bytes) : PRes (List ScriptDataValue) :=
  match c with
  | 0 => .ok input []
  | k + 1 =>
    match script_data_value input with
    | .err e => .err e
    | .ok rest v =>
      if _h : rest.length < input.length then
        match script_data_value_count k rest with
        | .ok r2 vs => .ok r2 (v :: vs)
        | .err e => .err e
      else .err .error
termination_by (input.length, 1, 0)

end

/-! ## Script tag, tag data dispatch, tags and the file body -/

/-- `static SCRIPT_DATA_VALUE_STRING_TYPE: &[u8] = &[0x02]`. -/
def SCRIPT_DATA_VALUE_STRING_TYPE : Bytes := [0x02]

/-- `ScriptTag`: a name (raw length-prefixed string after a fixed `0x02` type
byte) and one full script data value.  The declared tag size is ignored. -/
structure ScriptTag where
  name : Bytes
  value : ScriptDataValue

/-- `script_tag`: `tag!([0x02])`, then `script_data_string`, then
`script_data_value`.  The `_size` parameter is unused, exactly as in the
source (`pub fn script_tag(input: &[u8], _size: usize)`). -/
def script_tag (input : Bytes) (_size : Nat) : PRes ScriptTag :=
  match tag_pattern SCRIPT_DATA_VALUE_STRING_TYPE input with
  | .err e => .err e
  | .ok r1 _ =>
    match script_data_string r1 with
    | .err e => .err e
    | .ok r2 name =>
      match script_data_value r2 with
      | .err e => .err e
      | .ok r3 value => .ok r3 { name := name, value := value }

/-- `FLVTagData`: the closed variant over audio, video and script payloads. -/
inductive FLVTagData where
  | Audio (a : AudioTag)
  | Video (v : VideoTag)
  | Script (s : ScriptTag)

/-- `flv_tag_data`: dispatch on the tag type, passing the declared size. -/
def flv_tag_data (input : Bytes) (tag_type : FLVTagType) (size : Nat) : PRes FLVTagData :=
  match tag_type with
  | .Audio =>
    match audio_tag input size with
    | .ok r a => .ok r (.Audio a)
    | .err e => .err e
  | .Video =>
    match video_tag input size with
    | .ok r v => .ok r (.Video v)
    | .err e => .err e
  | .Script =>
    match script_tag input size with
    | .ok r s => .ok r (.Script s)
    | .err e => .err e

/-- `FLVTag`: header plus media-specific data. -/
structure FLVTag where
  header : FLVTagHeader
  data : FLVTagData

/-- `flv_tag`: header, then data dispatched on
`(header.tag_type, header.data_size)`. -/
def flv_tag (input : Bytes) : PRes FLVTag :=
  match flv_tag_header input with
  | .err e => .err e
  | .ok r1 header =>
    match flv_tag_data r1 header.tag_type header.data_size with
    | .err e => .err e
    | .ok r2 data => .ok r2 { header := header, data := data }

/-- `tuple!(flv_tag, be_u32)`: one tag followed by its trailing 4-byte
previous-tag size. -/
def flv_tag_with_size (input : Bytes) : PRes (FLVTag × Nat) :=
  match flv_tag input with
  | .err e => .err e
  | .ok r1 t =>
    match be_bytes 4 r1 with
    | .err e => .err e
    | .ok r2 s => .ok r2 (t, s)

/-- The `many0!(complete!(tuple!(flv_tag, be_u32)))` loop of `flv_file_body`.
`complete!` turns any `Incomplete` from the tag parser into a recoverable
`Error`, and `many0!` ends the loop on any recoverable `Error`, returning the
pairs accumulated so far.  The `else` branch is nom `many0`'s
zero-consumption check (`i1 == i` giving `ErrorKind::Many0`). -/
def flv_file_body_tags (input : Bytes) : PRes (List (FLVTag × Nat)) :=
  match flv_tag_with_size input with
  | .err _ => .ok input []
  | .ok rest p =>
    if _h : rest.length < input.length then
      match flv_file_body_tags rest with
      | .ok r2 ps => .ok r2 (p :: ps)
      | .err e => .err e
    else .err .error
termination_by input.length

/-- `FLVFileBody`: leading first-previous-tag size plus the tag sequence. -/
structure FLVFileBody where
  first_previous_tag_size : Nat
  tags : List (FLVTag × Nat)

/-- `flv_file_body`: `be_u32` for the first previous-tag size, then the
`many0!(complete!(...))` tag loop. -/
def flv_file_body (input : Bytes) : PRes FLVFileBody :=
  match be_bytes 4 input with
  | .err e => .err e
  | .ok r s =>
    match flv_file_body_tags r with
    | .err e => .err e
    | .ok r2 tags => .ok r2 { first_previous_tag_size := s, tags := tags }

/-- `FLVFile`: header plus body. -/
structure FLVFile where
  header : FLVFileHeader
  body : FLVFileBody

/-- `parse_flv_file`: file header then file body. -/
def parse_flv_file (input : Bytes) : PRes FLVFile :=
  match flv_file_header input with
  | .err e => .err e
  | .ok r header =>
    match flv_file_body r with
    | .err e => .err e
    | .ok r2 body => .ok r2 { header := header, body := body }

/-! ## Consumption lemmas

Every parser returns a suffix of its input; these lemmas make the consumed
byte counts explicit.  They justify that the zero-consumption guards inside
the loops are dead code, exactly as in the Rust original. -/

theorem be_u8_consumed {input rest : Bytes} {v : Nat}
    (h : be_u8 input = .ok rest v) :
    rest = input.drop 1 ∧ 1 ≤ input.length := by
  cases input with
  | nil => simp [be_u8] at h
  | cons b r => cases h; exact ⟨rfl, by simp⟩

theorem tag_pattern_consumed {pat input rest v : Bytes}
    (h : tag_pattern pat input = .ok rest v) :
    rest = input.drop pat.length ∧ pat.length ≤ input.length ∧
      input.take pat.length = pat := by
  unfold tag_pattern at h
  by_cases h1 : pat.length ≤ input.length
  · rw [if_pos h1] at h
    by_cases h2 : input.take pat.length = pat
    · rw [if_pos h2] at h; cases h; exact ⟨rfl, h1, h2⟩
    · rw [if_neg h2] at h; cases h
  · rw [if_neg h1] at h
    by_cases h2 : input = pat.take input.length
    · rw [if_pos h2] at h; cases h
    · rw [if_neg h2] at h; cases h

theorem script_data_string_consumed {input rest s : Bytes}
    (h : script_data_string input = .ok rest s) :
    ∃ k, 2 ≤ k ∧ k ≤ input.length ∧ rest = input.drop k := by
  unfold script_data_string at h
  cases hb : be_bytes 2 input with
  | err e => rw [hb] at h; simp at h
  | ok r len =>
    rw [hb] at h
    dsimp only at h
    obtain ⟨hr, hk⟩ := be_bytes_length hb
    by_cases hle : len ≤ r.length
    · rw [if_pos hle] at h
      by_cases hv : is_valid_utf8 (r.take len) = true
      · rw [if_pos hv] at h
        cases h
        refine ⟨2 + len, by omega, ?_, ?_⟩
        · have : r.length = input.length - 2 := by subst hr; simp [List.length_drop]
          omega
        · subst hr; rw [List.drop_drop]
      · rw [if_neg hv] at h; cases h
    · rw [if_neg hle] at h; cases h

theorem script_data_long_string_consumed {input rest s : Bytes}
    (h : script_data_long_string input = .ok rest s) :
    ∃ k, 4 ≤ k ∧ k ≤ input.length ∧ rest = input.drop k := by
  unfold script_data_long_string at h
  cases hb : be_bytes 4 input with
  | err e => rw [hb] at h; simp at h
  | ok r len =>
    rw [hb] at h
    dsimp only at h
    obtain ⟨hr, hk⟩ := be_bytes_length hb
    by_cases hle : len ≤ r.length
    · rw [if_pos hle] at h
      by_cases hv : is_valid_utf8 (r.take len) = true
      · rw [if_pos hv] at h
        cases h
        refine ⟨4 + len, by omega, ?_, ?_⟩
        · have : r.length = input.length - 4 := by subst hr; simp [List.length_drop]
          omega
        · subst hr; rw [List.drop_drop]
      · rw [if_neg hv] at h; cases h
    · rw [if_neg hle] at h; cases h

theorem script_data_date_consumed {input rest : Bytes} {d : ScriptDataDate}
    (h : script_data_date input = .ok rest d) :
    rest = input.drop 10 ∧ 10 ≤ input.length := by
  unfold script_data_date at h
  cases h8 : be_bytes 8 input with
  | err e => rw [h8] at h; simp at h
  | ok r1 v1 =>
    rw [h8] at h
    dsimp only at h
    cases h2 : be_bytes 2 r1 with
    | err e => rw [h2] at h; simp at h
    | ok r2 v2 =>
      rw [h2] at h
      cases h
      obtain ⟨hr1, hk1⟩ := be_bytes_length h8
      obtain ⟨hr2, hk2⟩ := be_bytes_length h2
      subst hr1; subst hr2
      rw [List.drop_drop]
      constructor
      · rfl
      · simp [List.length_drop] at hk2 ⊢; omega

/-- Joint consumption lemma for the recursive script-value grammar: every
successful parse returns a suffix of the input, and a value or a property
consumes at least one byte.  Proved by strong induction on the input
length. -/
theorem script_parsers_consume :
    ∀ n : Nat, ∀ input : Bytes, input.length ≤ n →
    (∀ rest v, script_data_value input = .ok rest v →
       ∃ k, 1 ≤ k ∧ k ≤ input.length ∧ rest = input.drop k) ∧
    (∀ rest p, script_data_object_property input = .ok rest p →
       ∃ k, 1 ≤ k ∧ k ≤ input.length ∧ rest = input.drop k) ∧
    (∀ rest ps, script_data_object_properties input = .ok rest ps →
       ∃ k, k ≤ input.length ∧ rest = input.drop k) ∧
    (∀ rest ps, script_data_object input = .ok rest ps →
       ∃ k, k ≤ input.length ∧ rest = input.drop k) ∧
    (∀ rest ps, script_data_ecma_array input = .ok rest ps →
       ∃ k, k ≤ input.length ∧ rest = input.drop k) ∧
    (∀ rest vs, script_data_strict_array input = .ok rest vs →
       ∃ k, k ≤ input.length ∧ rest = input.drop k) ∧
    (∀ c rest vs, script_data_value_count c input = .ok rest vs →
       ∃ k, k ≤ input.length ∧ rest = input.drop k) := by
  intro n
  induction n with
  | zero =>
    intro input hlen
    have hnil : input = [] := List.length_eq_zero.mp (Nat.le_zero.mp hlen)
    subst hnil
    refine ⟨?_, ?_, ?_, ?_, ?_, ?_, ?_⟩
    · intro rest v h; simp [script_data_value] at h
    · intro rest p h
      simp [script_data_object_property, script_data_string, be_bytes] at h
    · intro rest ps h
      simp [script_data_object_properties, script_data_object_property,
        script_data_string, be_bytes] at h
    · intro rest ps h
      simp [script_data_object, script_data_object_properties,
        script_data_object_property, script_data_string, be_bytes,
        script_data_object_end_marker, tag_pattern, OBJECT_END_MARKER] at h
    · intro rest ps h
      simp [script_data_ecma_array, be_bytes] at h
    · intro rest vs h
      simp [script_data_strict_array, be_bytes] at h
    · intro c rest vs h
      cases c with
      | zero =>
        unfold script_data_value_count at h
        cases h; exact ⟨0, by simp⟩
      | succ k => simp [script_data_value_count, script_data_value] at h
  | succ m ih =>
    intro input hlen
    have Hval : ∀ rest v, script_data_value input = .ok rest v →
        ∃ k, 1 ≤ k ∧ k ≤ input.length ∧ rest = input.drop k := by
      intro rest v h
      cases input with
      | nil => simp [script_data_value] at h
      | cons t r =>
        have hr : r.length ≤ m := by simp at hlen; omega
        unfold script_data_value at h
        split at h
        · -- 0 : Number
          rename_i heq
          cases hb : script_data_number r with
          | err e => rw [hb] at h; simp at h
          | ok r2 bits =>
            rw [hb] at h; cases h
            obtain ⟨h1, h2⟩ := be_bytes_length hb
            exact ⟨8 + 1, by omega, by simp; omega,
              by subst h1; rw [List.drop_succ_cons]⟩
        · -- 1 : Boolean
          cases hb : script_data_boolean r with
          | err e => rw [hb] at h; simp at h
          | ok r2 bv =>
            rw [hb] at h; cases h
            obtain ⟨h1, h2⟩ := be_u8_consumed hb
            exact ⟨1 + 1, by omega, by simp; omega,
              by subst h1; rw [List.drop_succ_cons]⟩
        · -- 2 : String
          cases hb : script_data_string r with
          | err e => rw [hb] at h; simp at h
          | ok r2 s =>
            rw [hb] at h; cases h
            obtain ⟨k, hk1, hk2, hk3⟩ := script_data_string_consumed hb
            exact ⟨k + 1, by omega, by simp; omega,
              by subst hk3; rw [List.drop_succ_cons]⟩
        · -- 3 : Object
          cases hb : script_data_object r with
          | err e => rw [hb] at h; simp at h
          | ok r2 props =>
            rw [hb] at h; cases h
            obtain ⟨k, hk2, hk3⟩ := (ih r hr).2.2.2.1 _ _ hb
            exact ⟨k + 1, by omega, by simp; omega,
              by subst hk3; rw [List.drop_succ_cons]⟩
        · -- 4 : MovieClip
          cases h; exact ⟨1, by omega, by simp, rfl⟩
        · -- 5 : Null
          cases h; exact ⟨1, by omega, by simp, rfl⟩
        · -- 6 : Undefined
          cases h; exact ⟨1, by omega, by simp, rfl⟩
        · -- 7 : Reference
          cases hb : script_data_reference r with
          | err e => rw [hb] at h; simp at h
          | ok r2 rv =>
            rw [hb] at h; cases h
            obtain ⟨h1, h2⟩ := be_bytes_length hb
            exact ⟨2 + 1, by omega, by simp; omega,
              by subst h1; rw [List.drop_succ_cons]⟩
        · -- 8 : ECMAArray
          cases hb : script_data_ecma_array r with
          | err e => rw [hb] at h; simp at h
          | ok r2 props =>
            rw [hb] at h; cases h
            obtain ⟨k, hk2, hk3⟩ := (ih r hr).2.2.2.2.1 _ _ hb
            exact ⟨k + 1, by omega, by simp; omega,
              by subst hk3; rw [List.drop_succ_cons]⟩
        · -- 10 : StrictArray
          cases hb : script_data_strict_array r with
          | err e => rw [hb] at h; simp at h
          | ok r2 vs =>
            rw [hb] at h; cases h
            obtain ⟨k, hk2, hk3⟩ := (ih r hr).2.2.2.2.2.1 _ _ hb
            exact ⟨k + 1, by omega, by simp; omega,
              by subst hk3; rw [List.drop_succ_cons]⟩
        · -- 11 : Date
          cases hb : script_data_date r with
          | err e => rw [hb] at h; simp at h
          | ok r2 d =>
            rw [hb] at h; cases h
            obtain ⟨h1, h2⟩ := script_data_date_consumed hb
            exact ⟨10 + 1, by omega, by simp; omega,
              by subst h1; rw [List.drop_succ_cons]⟩
        · -- 12 : LongString
          cases hb : script_data_long_string r with
          | err e => rw [hb] at h; simp at h
          | ok r2 s =>
            rw [hb] at h; cases h
            obtain ⟨k, hk1, hk2, hk3⟩ := script_data_long_string_consumed hb
            exact ⟨k + 1, by omega, by simp; omega,
              by subst hk3; rw [List.drop_succ_cons]⟩
        · -- any other type byte
          simp at h
    have Hprop : ∀ rest p, script_data_object_property input = .ok rest p →
        ∃ k, 1 ≤ k ∧ k ≤ input.length ∧ rest = input.drop k := by
      intro rest p h
      unfold script_data_object_property at h
      cases hs : script_data_string input with
      | err e => rw [hs] at h; simp at h
      | ok r1 name =>
        rw [hs] at h
        dsimp only at h
        obtain ⟨k1, hk1a, hk1b, hk1c⟩ := script_data_string_consumed hs
        cases hv : script_data_value r1 with
        | err e => rw [hv] at h; simp at h
        | ok r2 value =>
          rw [hv] at h; cases h
          have hr1 : r1.length ≤ m := by
            subst hk1c; simp [List.length_drop]; omega
          obtain ⟨k2, hk2a, hk2b, hk2c⟩ := (ih r1 hr1).1 _ _ hv
          refine ⟨k1 + k2, by omega, ?_, ?_⟩
          · have : r1.length = input.length - k1 := by
              subst hk1c; simp [List.length_drop]
            omega
          · subst hk1c; subst hk2c; rw [List.drop_drop]
    have Hprops : ∀ rest ps, script_data_object_properties input = .ok rest ps →
        ∃ k, k ≤ input.length ∧ rest = input.drop k := by
      intro rest ps h
      unfold script_data_object_properties at h
      cases hp : script_data_object_property input with
      | err e =>
        rw [hp] at h
        cases e with
        | incomplete nn => simp at h
        | error => cases h; exact ⟨0, by simp⟩
      | ok rest1 p =>
        rw [hp] at h
        dsimp only at h
        obtain ⟨k1, hk1a, hk1b, hk1c⟩ := Hprop _ _ hp
        have hlt : rest1.length < input.length := by
          subst hk1c; simp [List.length_drop]; omega
        rw [dif_pos hlt] at h
        cases hrec : script_data_object_properties rest1 with
        | err e => rw [hrec] at h; simp at h
        | ok r2 ps2 =>
          rw [hrec] at h; cases h
          have hm : rest1.length ≤ m := by omega
          obtain ⟨k2, hk2a, hk2b⟩ := (ih rest1 hm).2.2.1 _ _ hrec
          refine ⟨k1 + k2, ?_, ?_⟩
          · have : rest1.length = input.length - k1 := by
              subst hk1c; simp [List.length_drop]
            omega
          · subst hk1c; subst hk2b; rw [List.drop_drop]
    have Hobj : ∀ rest ps, script_data_object input = .ok rest ps →
        ∃ k, k ≤ input.length ∧ rest = input.drop k := by
      intro rest ps h
      unfold script_data_object at h
      cases hp : script_data_object_properties input with
      | err e => rw [hp] at h; simp at h
      | ok r1 props =>
        rw [hp] at h
        dsimp only at h
        cases hm : script_data_object_end_marker r1 with
        | err e => rw [hm] at h; simp at h
        | ok r2 mk => 
          rw [hm] at h; cases h
          obtain ⟨k1, hk1a, hk1b⟩ := Hprops _ _ hp
          obtain ⟨h1, h2, h3⟩ := tag_pattern_consumed hm
          refine ⟨k1 + 3, ?_, ?_⟩
          · have : r1.length = input.length - k1 := by
              subst hk1b; simp [List.length_drop]
            simp [OBJECT_END_MARKER] at h2
            omega
          · subst hk1b; subst h1
            rw [List.drop_drop]
            rfl
    have Hecma : ∀ rest ps, script_data_ecma_array input = .ok rest ps →
        ∃ k, k ≤ input.length ∧ rest = input.drop k := by
      intro rest ps h
      unfold script_data_ecma_array at h
      cases hb : be_bytes 4 input with
      | err e => rw [hb] at h; simp at h
      | ok r1 len =>
        rw [hb] at h
        dsimp only at h
        obtain ⟨hb1, hb2⟩ := be_bytes_length hb
        have hr1m : r1.length ≤ m := by
          subst hb1; simp [List.length_drop]; omega
        cases hp : script_data_object_properties r1 with
        | err e => rw [hp] at h; simp at h
        | ok r2 props =>
          rw [hp] at h
          dsimp only at h
          cases hmk : script_data_object_end_marker r2 with
          | err e => rw [hmk] at h; simp at h
          | ok r3 mk =>
            rw [hmk] at h; cases h
            obtain ⟨k2, hk2a, hk2b⟩ := (ih r1 hr1m).2.2.1 _ _ hp
            obtain ⟨h1, h2, h3⟩ := tag_pattern_consumed hmk
            refine ⟨4 + k2 + 3, ?_, ?_⟩
            · have e1 : r1.length = input.length - 4 := by
                subst hb1; simp [List.length_drop]
              have e2 : r2.length = r1.length - k2 := by
                subst hk2b; simp [List.length_drop]
              simp [OBJECT_END_MARKER] at h2
              omega
            · subst hb1; subst hk2b; subst h1
              rw [List.drop_drop, List.drop_drop]
              rfl
    have Hcount : ∀ c rest vs, script_data_value_count c input = .ok rest vs →
        ∃ k, k ≤ input.length ∧ rest = input.drop k := by
      intro c rest vs h
      cases c with
      | zero =>
        unfold script_data_value_count at h
        cases h; exact ⟨0, by simp⟩
      | succ c' =>
        unfold script_data_value_count at h
        cases hv : script_data_value input with
        | err e => rw [hv] at h; simp at h
        | ok r1 v =>
          rw [hv] at h
          dsimp only at h
          obtain ⟨k1, hk1a, hk1b, hk1c⟩ := Hval _ _ hv
          have hlt : r1.length < input.length := by
            subst hk1c; simp [List.length_drop]; omega
          rw [dif_pos hlt] at h
          cases hrec : script_data_value_count c' r1 with
          | err e => rw [hrec] at h; simp at h
          | ok r2 vs2 =>
            rw [hrec] at h; cases h
            have hm : r1.length ≤ m := by omega
            obtain ⟨k2, hk2a, hk2b⟩ := (ih r1 hm).2.2.2.2.2.2 _ _ _ hrec
            refine ⟨k1 + k2, ?_, ?_⟩
            · have : r1.length = input.length - k1 := by
                subst hk1c; simp [List.length_drop]
              omega
            · subst hk1c; subst hk2b; rw [List.drop_drop]
    have Hstrict : ∀ rest vs, script_data_strict_array input = .ok rest vs →
        ∃ k, k ≤ input.length ∧ rest = input.drop k := by
      intro rest vs h
      unfold script_data_strict_array at h
      cases hb : be_bytes 4 input with
      | err e => rw [hb] at h; simp at h
      | ok r1 len =>
        rw [hb] at h
        dsimp only at h
        obtain ⟨hb1, hb2⟩ := be_bytes_length hb
        have hr1m : r1.length ≤ m := by
          subst hb1; simp [List.length_drop]; omega
        cases hc : script_data_value_count len r1 with
        | err e => rw [hc] at h; simp at h
        | ok r2 vs2 =>
          rw [hc] at h; cases h
          obtain ⟨k2, hk2a, hk2b⟩ := (ih r1 hr1m).2.2.2.2.2.2 _ _ _ hc
          refine ⟨4 + k2, ?_, ?_⟩
          · have : r1.length = input.length - 4 := by
              subst hb1; simp [List.length_drop]
            omega
          · subst hb1; subst hk2b; rw [List.drop_drop]
    exact ⟨Hval, Hprop, Hprops, Hobj, Hecma, Hstrict, Hcount⟩

theorem script_data_value_consumed {input rest : Bytes} {v : ScriptDataValue}
    (h : script_data_value input = .ok rest v) :
    ∃ k, 1 ≤ k ∧ k ≤ input.length ∧ rest = input.drop k :=
  (script_parsers_consume input.length input le_rfl).1 _ _ h

theorem script_data_object_properties_consumed {input rest : Bytes}
    {ps : List ScriptDataObjectProperty}
    (h : script_data_object_properties input = .ok rest ps) :
    ∃ k, k ≤ input.length ∧ rest = input.drop k :=
  (script_parsers_consume input.length input le_rfl).2.2.1 _ _ h

theorem script_data_object_consumed {input rest : Bytes}
    {ps : List ScriptDataObjectProperty}
    (h : script_data_object input = .ok rest ps) :
    ∃ k, k ≤ input.length ∧ rest = input.drop k :=
  (script_parsers_consume input.length input le_rfl).2.2.2.1 _ _ h

theorem script_tag_consumed {input rest : Bytes} {size : Nat} {st : ScriptTag}
    (h : script_tag input size = .ok rest st) :
    ∃ k, 1 ≤ k ∧ k ≤ input.length ∧ rest = input.drop k := by
  unfold script_tag at h
  cases ht : tag_pattern SCRIPT_DATA_VALUE_STRING_TYPE input with
  | err e => rw [ht] at h; simp at h
  | ok r1 pat =>
    rw [ht] at h
    dsimp only at h
    obtain ⟨h1, h2, h3⟩ := tag_pattern_consumed ht
    have hlen1 : SCRIPT_DATA_VALUE_STRING_TYPE.length = 1 := rfl
    rw [hlen1] at h1 h2
    cases hs : script_data_string r1 with
    | err e => rw [hs] at h; simp at h
    | ok r2 name =>
      rw [hs] at h
      dsimp only at h
      obtain ⟨k2, hk2a, hk2b, hk2c⟩ := script_data_string_consumed hs
      cases hv : script_data_value r2 with
      | err e => rw [hv] at h; simp at h
      | ok r3 value =>
        rw [hv] at h; cases h
        obtain ⟨k3, hk3a, hk3b, hk3c⟩ := script_data_value_consumed hv
        refine ⟨1 + k2 + k3, by omega, ?_, ?_⟩
        · have e1 : r1.length = input.length - 1 := by
            subst h1; simp [List.length_drop]
          have e2 : r2.length = r1.length - k2 := by
            subst hk2c; simp [List.length_drop]
          omega
        · subst h1; subst hk2c; subst hk3c
          rw [List.drop_drop, List.drop_drop, Nat.add_assoc]

theorem flv_tag_header_consumed {input rest : Bytes} {hd : FLVTagHeader}
    (h : flv_tag_header input = .ok rest hd) :
    rest = input.drop 11 ∧ 11 ≤ input.length := by
  unfold flv_tag_header at h
  cases h0 : be_u8 input with
  | err e => rw [h0] at h; simp at h
  | ok r0 t =>
    rw [h0] at h
    dsimp only at h
    obtain ⟨e0, l0⟩ := be_u8_consumed h0
    cases hsw : (match t with
                 | 8 => some FLVTagType.Audio
                 | 9 => some FLVTagType.Video
                 | 18 => some FLVTagType.Script
                 | _ => none) with
    | none => rw [hsw] at h; simp at h
    | some tt =>
      rw [hsw] at h
      dsimp only at h
      cases h1 : be_bytes 3 r0 with
      | err e => rw [h1] at h; simp at h
      | ok r1 ds =>
        rw [h1] at h
        dsimp only at h
        obtain ⟨e1, l1⟩ := be_bytes_length h1
        cases h2 : be_bytes 3 r1 with
        | err e => rw [h2] at h; simp at h
        | ok r2 ts =>
          rw [h2] at h
          dsimp only at h
          obtain ⟨e2, l2⟩ := be_bytes_length h2
          cases h3 : be_u8 r2 with
          | err e => rw [h3] at h; simp at h
          | ok r3 ext =>
            rw [h3] at h
            dsimp only at h
            obtain ⟨e3, l3⟩ := be_u8_consumed h3
            cases h4 : be_bytes 3 r3 with
            | err e => rw [h4] at h; simp at h
            | ok r4 sid =>
              rw [h4] at h; cases h
              obtain ⟨e4, l4⟩ := be_bytes_length h4
              subst e0; subst e1; subst e2; subst e3; subst e4
              rw [List.drop_drop, List.drop_drop, List.drop_drop, List.drop_drop]
              refine ⟨rfl, ?_⟩
              simp [List.length_drop] at l1 l2 l3 l4
              omega

theorem audio_tag_consumed {input rest : Bytes} {size : Nat} {t : AudioTag}
    (h : audio_tag input size = .ok rest t) :
    1 ≤ size ∧ size ≤ input.length ∧ rest = input.drop size := by
  unfold audio_tag at h
  cases hh : audio_tag_header input size with
  | err e => rw [hh] at h; simp at h
  | ok r1 hd =>
    rw [hh] at h
    dsimp only at h
    unfold audio_tag_header at hh
    by_cases hsz : size < 1
    · rw [if_pos hsz] at hh; cases hh
    · rw [if_neg hsz] at hh
      cases input with
      | nil => cases hh
      | cons b r =>
        dsimp only at hh
        cases hfmt : sound_format_of_nibble (b / 16 % 16) with
        | none => rw [hfmt] at hh; cases hh
        | some fmt =>
          rw [hfmt] at hh
          cases hh
          cases hb : audio_tag_body r1 (size - 1) with
          | err e => rw [hb] at h; simp at h
          | ok r2 body =>
            rw [hb] at h; cases h
            unfold audio_tag_body at hb
            by_cases hlen : r1.length < size - 1
            · rw [if_pos hlen] at hb; cases hb
            · rw [if_neg hlen] at hb
              cases hb
              obtain ⟨sz1, rfl⟩ : ∃ sz1, size = sz1 + 1 := ⟨size - 1, by omega⟩
              refine ⟨by omega, by simp; omega, ?_⟩
              simp [List.drop_succ_cons]

theorem video_tag_consumed {input rest : Bytes} {size : Nat} {t : VideoTag}
    (h : video_tag input size = .ok rest t) :
    1 ≤ size ∧ size ≤ input.length ∧ rest = input.drop size := by
  unfold video_tag at h
  cases hh : video_tag_header input size with
  | err e => rw [hh] at h; simp at h
  | ok r1 hd =>
    rw [hh] at h
    dsimp only at h
    unfold video_tag_header at hh
    by_cases hsz : size < 1
    · rw [if_pos hsz] at hh; cases hh
    · rw [if_neg hsz] at hh
      cases input with
      | nil => cases hh
      | cons b r =>
        dsimp only at hh
        cases hh
        cases hb : video_tag_body r1 (size - 1) with
        | err e => rw [hb] at h; simp at h
        | ok r2 body =>
          rw [hb] at h; cases h
          unfold video_tag_body at hb
          by_cases hlen : r1.length < size - 1
          · rw [if_pos hlen] at hb; cases hb
          · rw [if_neg hlen] at hb
            cases hb
            obtain ⟨sz1, rfl⟩ : ∃ sz1, size = sz1 + 1 := ⟨size - 1, by omega⟩
            refine ⟨by omega, by simp; omega, ?_⟩
            simp [List.drop_succ_cons]

theorem flv_tag_data_consumed {input rest : Bytes} {tt : FLVTagType} {size : Nat}
    {d : FLVTagData} (h : flv_tag_data input tt size = .ok rest d) :
    ∃ k, k ≤ input.length ∧ rest = input.drop k := by
  unfold flv_tag_data at h
  cases tt with
  | Audio =>
    cases ha : audio_tag input size with
    | err e => rw [ha] at h; simp at h
    | ok r a =>
      rw [ha] at h; cases h
      obtain ⟨h1, h2, h3⟩ := audio_tag_consumed ha
      exact ⟨size, h2, h3⟩
  | Video =>
    cases hv : video_tag input size with
    | err e => rw [hv] at h; simp at h
    | ok r v =>
      rw [hv] at h; cases h
      obtain ⟨h1, h2, h3⟩ := video_tag_consumed hv
      exact ⟨size, h2, h3⟩
  | Script =>
    cases hs : script_tag input size with
    | err e => rw [hs] at h; simp at h
    | ok r s =>
      rw [hs] at h; cases h
      obtain ⟨k, h1, h2, h3⟩ := script_tag_consumed hs
      exact ⟨k, h2, h3⟩

theorem flv_tag_consumed {input rest : Bytes} {t : FLVTag}
    (h : flv_tag input = .ok rest t) :
    ∃ k, 11 ≤ k ∧ k ≤ input.length ∧ rest = input.drop k := by
  unfold flv_tag at h
  cases hh : flv_tag_header input with
  | err e => rw [hh] at h; simp at h
  | ok r1 hd =>
    rw [hh] at h
    dsimp only at h
    obtain ⟨e1, l1⟩ := flv_tag_header_consumed hh
    cases hd2 : flv_tag_data r1 hd.tag_type hd.data_size with
    | err e => rw [hd2] at h; simp at h
    | ok r2 d =>
      rw [hd2] at h; cases h
      obtain ⟨k2, hk2a, hk2b⟩ := flv_tag_data_consumed hd2
      refine ⟨11 + k2, by omega, ?_, ?_⟩
      · have : r1.length = input.length - 11 := by
          subst e1; simp [List.length_drop]
        omega
      · subst e1; subst hk2b; rw [List.drop_drop]

theorem flv_tag_with_size_consumed {input rest : Bytes} {p : FLVTag × Nat}
    (h : flv_tag_with_size input = .ok rest p) :
    ∃ k, 15 ≤ k ∧ k ≤ input.length ∧ rest = input.drop k := by
  unfold flv_tag_with_size at h
  cases ht : flv_tag input with
  | err e => rw [ht] at h; simp at h
  | ok r1 t =>
    rw [ht] at h
    dsimp only at h
    obtain ⟨k1, hk1a, hk1b, hk1c⟩ := flv_tag_consumed ht
    cases hs : be_bytes 4 r1 with
    | err e => rw [hs] at h; simp at h
    | ok r2 s =>
      rw [hs] at h; cases h
      obtain ⟨e2, l2⟩ := be_bytes_length hs
      refine ⟨k1 + 4, by omega, ?_, ?_⟩
      · have : r1.length = input.length - k1 := by
          subst hk1c; simp [List.length_drop]
        omega
      · subst hk1c; subst e2; rw [List.drop_drop]

/-- The `many0!(complete!(...))` tag loop never fails: any error from the tag
parser (truncation or otherwise) ends the loop with the tags accumulated so
far, and the zero-consumption guard never fires because a tag with its
trailing size always consumes at least 15 bytes. -/
theorem flv_file_body_tags_total : ∀ input : Bytes,
    ∃ rest tags, flv_file_body_tags input = .ok rest tags := by
  have aux : ∀ n : Nat, ∀ input : Bytes, input.length ≤ n →
      ∃ rest tags, flv_file_body_tags input = .ok rest tags := by
    intro n
    induction n with
    | zero =>
      intro input hlen
      have hnil : input = [] := List.length_eq_zero.mp (Nat.le_zero.mp hlen)
      subst hnil
      unfold flv_file_body_tags
      cases hp : flv_tag_with_size [] with
      | err e => exact ⟨[], [], rfl⟩
      | ok rest p =>
        obtain ⟨k, hk15, hkle, hkdrop⟩ := flv_tag_with_size_consumed hp
        simp at hkle
        omega
    | succ m ih =>
      intro input hlen
      unfold flv_file_body_tags
      cases hp : flv_tag_with_size input with
      | err e => exact ⟨input, [], rfl⟩
      | ok rest p =>
        obtain ⟨k, hk15, hkle, hkdrop⟩ := flv_tag_with_size_consumed hp
        have hlt : rest.length < input.length := by
          subst hkdrop; simp [List.length_drop]; omega
        dsimp only
        rw [dif_pos hlt]
        obtain ⟨r2, tags2, hrec⟩ := ih rest (by omega)
        rw [hrec]
        exact ⟨r2, p :: tags2, rfl⟩
  intro input
  exact aux input.length input le_rfl

/-! ## Claims -/

/-- C4: For every buffer of at least 9 bytes whose first 3 bytes equal the
magic `0x46 0x4c 0x56`, the file header decoder succeeds and returns
version = byte 3, flags = byte 4, `has_audio` true iff bit 2 of flags is set,
`has_video` true iff bit 0 of flags is set, and `data_offset` the big-endian
u32 of bytes 5..8; for every buffer of at least 3 bytes whose first 3 bytes
differ from the magic, it fails. -/
theorem C4_file_header :
    (∀ (v f d1 d2 d3 d4 : Nat) (rest : Bytes),
       flv_file_header (0x46 :: 0x4c :: 0x56 :: v :: f :: d1 :: d2 :: d3 :: d4 :: rest) =
         .ok rest { signature := [0x46, 0x4c, 0x56], version := v, flags := f,
                    has_audio := f &&& 4 == 4, has_video := f &&& 1 == 1,
                    data_offset := bytes_to_nat [d1, d2, d3, d4] }) ∧
    (∀ f : Nat, f < 256 →
       ((f &&& 4 == 4) = f.testBit 2 ∧ (f &&& 1 == 1) = f.testBit 0)) ∧
    (∀ input : Bytes, 3 ≤ input.length → input.take 3 ≠ [0x46, 0x4c, 0x56] →
       flv_file_header input = .err .error) := by
  refine ⟨?_, ?_, ?_⟩
  · intro v f d1 d2 d3 d4 rest
    simp [flv_file_header, tag_pattern, FLV_HEADER_SIGNATURE, be_u8, be_bytes,
      bytes_to_nat]
  · decide
  · intro input h3 hne
    unfold flv_file_header tag_pattern
    have hlen : FLV_HEADER_SIGNATURE.length = 3 := rfl
    rw [hlen]
    rw [if_pos h3, if_neg (by simpa [FLV_HEADER_SIGNATURE] using hne)]

/-- Witness for C4 at flags byte `0b00000101` (has_audio and has_video both
true, data_offset 9) and at a wrong-magic buffer. -/
theorem C4_witness :
    flv_file_header [0x46, 0x4c, 0x56, 1, 5, 0, 0, 0, 9] =
      .ok [] { signature := [0x46, 0x4c, 0x56], version := 1, flags := 5,
               has_audio := true, has_video := true, data_offset := 9 } ∧
    ((5 &&& 4 == 4) = Nat.testBit 5 2 ∧ (5 &&& 1 == 1) = Nat.testBit 5 0) ∧
    flv_file_header [0x47, 0x4c, 0x56] = .err .error := by
  refine ⟨?_, ?_, ?_⟩
  · have h := C4_file_header.1 1 5 0 0 0 9 []
    simpa [bytes_to_nat] using h
  · exact C4_file_header.2.1 5 (by decide)
  · exact C4_file_header.2.2 [0x47, 0x4c, 0x56] (by decide) (by decide)

/-- C7: For every audio payload of size ≥ 1, decoding the 1-byte sub-header
succeeds with the documented named value when the sound_format nibble is in
{0..11, 14, 15} and fails when the nibble is 12 or 13; the 2-bit sound_rate,
1-bit sound_size and 1-bit sound_type fields always map to a named value and
never fail. -/
theorem C7_audio_sub_header :
    ∀ (b : Nat) (r : Bytes) (size : Nat), 1 ≤ size →
      ((b / 16 % 16 = 12 ∨ b / 16 % 16 = 13) →
         audio_tag_header (b :: r) size = .err .error) ∧
      (¬(b / 16 % 16 = 12 ∨ b / 16 % 16 = 13) →
         ∃ fmt, sound_format_of_nibble (b / 16 % 16) = some fmt ∧
           audio_tag_header (b :: r) size = .ok r
             { sound_format := fmt,
               sound_rate := sound_rate_of_bits (b / 4 % 4),
               sound_size := sound_size_of_bit (b / 2 % 2),
               sound_type := sound_type_of_bit (b % 2) }) := by
  intro b r size hsz
  constructor
  · intro h12
    rcases h12 with h | h <;>
      simp [audio_tag_header, h, sound_format_of_nibble, show ¬size < 1 by omega]
  · intro hne
    have h16 : b / 16 % 16 < 16 := Nat.mod_lt _ (by norm_num)
    cases hfmt : sound_format_of_nibble (b / 16 % 16) with
    | none =>
      exfalso
      unfold sound_format_of_nibble at hfmt
      split at hfmt
      all_goals first
        | (apply hne; simp only [imp_false] at *; omega)
        | cases hfmt
    | some fmt =>
      exact ⟨fmt, rfl, by
        simp [audio_tag_header, hfmt, show ¬size < 1 by omega]⟩

/-- Witness for C7: byte `0xaf` (nibble 10) decodes to the AAC header of the
repository's own test tag, and nibble 12 (byte `0xc3`) fails. -/
theorem C7_witness :
    audio_tag_header [0xaf] 1 =
      .ok [] { sound_format := .AAC, sound_rate := ._44KHZ,
               sound_size := ._16Bit, sound_type := .Stereo } ∧
    audio_tag_header [0xc3] 1 = .err .error := by
  constructor
  · obtain ⟨fmt, hf, hok⟩ := (C7_audio_sub_header 0xaf [] 1 (by decide)).2 (by decide)
    have hfmt : fmt = SoundFormat.AAC := by
      simp [sound_format_of_nibble] at hf
      exact hf.symm
    subst hfmt
    simpa [sound_rate_of_bits, sound_size_of_bit, sound_type_of_bit] using hok
  · exact (C7_audio_sub_header 0xc3 [] 1 (by decide)).1 (by decide)

/-- C8: For every video payload of size ≥ 1 with at least one input byte,
decoding the 1-byte video sub-header always succeeds; a frame_type nibble
outside {1..5} and a codec_id nibble outside {2..7} each map to the sentinel
`Unknown` rather than an error. -/
theorem C8_video_sub_header :
    ∀ (b : Nat) (r : Bytes) (size : Nat), 1 ≤ size →
      video_tag_header (b :: r) size = .ok r
        { frame_type := frame_type_of_nibble (b / 16 % 16),
          codec_id := codec_id_of_nibble (b % 16) } ∧
      (¬(1 ≤ b / 16 % 16 ∧ b / 16 % 16 ≤ 5) →
         frame_type_of_nibble (b / 16 % 16) = .Unknown) ∧
      (¬(2 ≤ b % 16 ∧ b % 16 ≤ 7) → codec_id_of_nibble (b % 16) = .Unknown) := by
  intro b r size hsz
  refine ⟨?_, ?_, ?_⟩
  · simp [video_tag_header, show ¬size < 1 by omega]
  · intro h
    unfold frame_type_of_nibble
    split
    all_goals first
      | rfl
      | (exfalso; apply h; constructor <;> omega)
  · intro h
    unfold codec_id_of_nibble
    split
    all_goals first
      | rfl
      | (exfalso; apply h; constructor <;> omega)

/-- Witness for C8: byte `0x08` has frame_type nibble 0 ∉ {1..5} and codec_id
nibble 8 ∉ {2..7}, and decoding succeeds with both sentinels. -/
theorem C8_witness :
    video_tag_header [0x08] 1 =
      .ok [] { frame_type := .Unknown, codec_id := .Unknown } := by
  obtain ⟨hok, hfr, hco⟩ := C8_video_sub_header 0x08 [] 1 (by decide)
  rw [hfr (by decide), hco (by decide)] at hok
  exact hok

theorem be_bytes_cons3 (a b c : Nat) (tail : Bytes) :
    be_bytes 3 (a :: b :: c :: tail) = .ok tail (bytes_to_nat [a, b, c]) := by
  unfold be_bytes
  rw [if_pos (by simp)]
  rfl

theorem be_bytes_cons4 (a b c d : Nat) (tail : Bytes) :
    be_bytes 4 (a :: b :: c :: d :: tail) = .ok tail (bytes_to_nat [a, b, c, d]) := by
  unfold be_bytes
  rw [if_pos (by simp)]
  rfl

/-- C9: For every successfully decoded tag header, the 32-bit timestamp is
the 3-byte big-endian timestamp with the 1-byte extension as the unsigned
high byte: `timestamp = extension * 2^24 + u24`, with no sign extension. -/
theorem C9_timestamp :
    ∀ (tb d1 d2 d3 t1 t2 t3 ext s1 s2 s3 : Nat) (rest : Bytes),
      (tb = 8 ∨ tb = 9 ∨ tb = 18) →
      t1 < 256 → t2 < 256 → t3 < 256 → ext < 256 →
      ∃ tt : FLVTagType,
        flv_tag_header
          (tb :: d1 :: d2 :: d3 :: t1 :: t2 :: t3 :: ext :: s1 :: s2 :: s3 :: rest) =
          .ok rest { tag_type := tt,
                     data_size := bytes_to_nat [d1, d2, d3],
                     timestamp := ext * 2 ^ 24 + bytes_to_nat [t1, t2, t3],
                     stream_id := bytes_to_nat [s1, s2, s3] } := by
  intro tb d1 d2 d3 t1 t2 t3 ext s1 s2 s3 rest htb h1 h2 h3 hext
  have hmod : (ext * 2 ^ 24 + bytes_to_nat [t1, t2, t3]) % 2 ^ 32 =
      ext * 2 ^ 24 + bytes_to_nat [t1, t2, t3] := by
    apply Nat.mod_eq_of_lt
    simp [bytes_to_nat]
    omega
  rcases htb with h | h | h <;> subst h
  · refine ⟨.Audio, ?_⟩
    unfold flv_tag_header
    simp only [be_u8, be_bytes_cons3]
    rw [hmod]
  · refine ⟨.Video, ?_⟩
    unfold flv_tag_header
    simp only [be_u8, be_bytes_cons3]
    rw [hmod]
  · refine ⟨.Script, ?_⟩
    unfold flv_tag_header
    simp only [be_u8, be_bytes_cons3]
    rw [hmod]

/-- Witness for C9: extension 1 with u24 timestamp 1 yields
`timestamp = 2^24 + 1 = 16777217`, an unsigned composite. -/
theorem C9_witness :
    ∃ tt : FLVTagType,
      flv_tag_header [8, 0, 0, 7, 0, 0, 1, 1, 0, 0, 0] =
        .ok [] { tag_type := tt, data_size := 7, timestamp := 16777217,
                 stream_id := 0 } := by
  obtain ⟨tt, h⟩ := C9_timestamp 8 0 0 7 0 0 1 1 0 0 0 []
    (by tauto) (by decide) (by decide) (by decide) (by decide)
  exact ⟨tt, by simpa [bytes_to_nat] using h⟩

/-- C10: With declared size 0 the audio and video tag decoders return an
error from the sub-header parser's `size < 1` check before the `size - 1`
body computation is ever reached, and a successful decode forces size ≥ 1
(so the decoders are total for all size values). -/
theorem C10_size_zero :
    (∀ input : Bytes, audio_tag input 0 = .err (.incomplete 1)) ∧
    (∀ input : Bytes, video_tag input 0 = .err (.incomplete 1)) ∧
    (∀ (input rest : Bytes) (size : Nat) (t : AudioTag),
       audio_tag input size = .ok rest t → 1 ≤ size) ∧
    (∀ (input rest : Bytes) (size : Nat) (t : VideoTag),
       video_tag input size = .ok rest t → 1 ≤ size) := by
  refine ⟨?_, ?_, ?_, ?_⟩
  · intro input; rfl
  · intro input; rfl
  · intro input rest size t h; exact (audio_tag_consumed h).1
  · intro input rest size t h; exact (video_tag_consumed h).1

/-- Witness for C10: the zero-size errors at an empty input, and size ≥ 1
extracted from a concrete successful audio decode. -/
theorem C10_witness :
    audio_tag [] 0 = .err (.incomplete 1) ∧
    video_tag [] 0 = .err (.incomplete 1) ∧
    1 ≤ 1 := by
  refine ⟨C10_size_zero.1 [], C10_size_zero.2.1 [], ?_⟩
  exact C10_size_zero.2.2.1 [0x2f] []
    1 { header := { sound_format := .MP3, sound_rate := ._44KHZ,
                    sound_size := ._16Bit, sound_type := .Stereo },
        body := { data := [] } } (by rfl)

/-- C2: For every input with at least 4 bytes for the first previous-tag
size, the tag stream decoder does not fail: it returns the (possibly empty)
list of tags accumulated by the loop, which stops — rather than failing —
when the final tag cannot be fully read. -/
theorem C2_graceful_truncation :
    ∀ input : Bytes, 4 ≤ input.length →
      ∃ rest tags, flv_file_body_tags (input.drop 4) = .ok rest tags ∧
        flv_file_body input = .ok rest
          { first_previous_tag_size := bytes_to_nat (input.take 4), tags := tags } := by
  intro input h4
  obtain ⟨rest, tags, htags⟩ := flv_file_body_tags_total (input.drop 4)
  refine ⟨rest, tags, htags, ?_⟩
  unfold flv_file_body
  have hb : be_bytes 4 input = .ok (input.drop 4) (bytes_to_nat (input.take 4)) := by
    unfold be_bytes
    rw [if_pos h4]
  rw [hb]
  dsimp only
  rw [htags]

/-- Witness for C2: a stream whose only tag is truncated after its type byte
decodes to an empty tag list instead of failing. -/
theorem C2_witness :
    ∃ rest tags, flv_file_body_tags [8] = .ok rest tags ∧
      flv_file_body [0, 0, 0, 0, 8] = .ok rest
        { first_previous_tag_size := 0, tags := tags } := by
  have h := C2_graceful_truncation [0, 0, 0, 0, 8] (by decide)
  simpa [bytes_to_nat] using h

/-- C3 counterexample: the claim says a tag whose decoding fails for a reason
other than insufficient bytes (here a tag-type byte 7 ∉ {8, 9, 18}) makes the
tag stream decoder fail and propagate the error.  In fact `many0!` ends the
loop on any recoverable error, so this stream decodes successfully to the one
valid audio tag decoded before the malformed one, leaving the offending bytes
unconsumed. -/
theorem C3_counterexample :
    flv_file_body
        [0, 0, 0, 0,
         8, 0, 0, 2, 0, 0, 0, 0, 0, 0, 0,
         0x2f, 0xaa,
         0, 0, 0, 15,
         7, 1, 2, 3] =
      .ok [7, 1, 2, 3]
        { first_previous_tag_size := 0,
          tags := [({ header := { tag_type := .Audio, data_size := 2,
                                  timestamp := 0, stream_id := 0 },
                      data := .Audio
                        { header := { sound_format := .MP3,
                                      sound_rate := ._44KHZ,
                                      sound_size := ._16Bit,
                                      sound_type := .Stereo },
                          body := { data := [0xaa] } } }, 15)] } := by
  simp [flv_file_body, flv_file_body_tags, flv_tag_with_size, flv_tag,
    flv_tag_header, flv_tag_data, audio_tag, audio_tag_header, audio_tag_body,
    sound_format_of_nibble, sound_rate_of_bits, sound_size_of_bit,
    sound_type_of_bit, be_u8, be_bytes, bytes_to_nat]

/-- C3 amended: no tag-level decode failure — malformed tag type, invalid
UTF-8, missing terminator or truncation alike — propagates out of the tag
stream decoder; the loop ends and the tags decoded so far are returned.  The
decoder itself fails only when fewer than 4 bytes exist for the first
previous-tag-size read. -/
theorem C3_amended :
    ∀ (input : Bytes) (e : PError),
      flv_file_body input = .err e → input.length < 4 := by
  intro input e h
  unfold flv_file_body at h
  cases hb : be_bytes 4 input with
  | err e2 =>
    unfold be_bytes at hb
    by_cases h4 : 4 ≤ input.length
    · rw [if_pos h4] at hb; cases hb
    · omega
  | ok r s =>
    rw [hb] at h
    dsimp only at h
    obtain ⟨rest, tags, htags⟩ := flv_file_body_tags_total r
    rw [htags] at h
    cases h

/-- Witness for C3 amended: a 2-byte input does make the decoder fail, and
the theorem concludes its length is below 4. -/
theorem C3_witness : ([1, 2] : Bytes).length < 4 :=
  C3_amended [1, 2] (.incomplete 4) (by rfl)


/-- C1 counterexample: a script tag declaring `data_size = 100` whose script
payload occupies only 5 bytes decodes successfully inside the tag stream (the
trailing previous-tag size is read right after those 5 bytes), so for this
successfully decoded tag the declared data_size does not equal the bytes the
script payload decoder consumed: `script_tag` ignores its size argument. -/
theorem C1_counterexample :
    flv_file_body
        [0, 0, 0, 0,
         18, 0, 0, 100, 0, 0, 0, 0, 0, 0, 0,
         2, 0, 1, 97, 5,
         0, 0, 0, 16] =
      .ok []
        { first_previous_tag_size := 0,
          tags := [({ header := { tag_type := .Script, data_size := 100,
                                  timestamp := 0, stream_id := 0 },
                      data := .Script { name := [97], value := .Null } }, 16)] } ∧
    script_tag [2, 0, 1, 97, 5] 100 = .ok [] { name := [97], value := .Null } ∧
    ([2, 0, 1, 97, 5] : Bytes).length ≠ 100 := by
  have hst : script_tag [2, 0, 1, 97, 5, 0, 0, 0, 16] 100 =
      .ok [0, 0, 0, 16] { name := [97], value := .Null } := by
    unfold script_tag
    rw [show tag_pattern SCRIPT_DATA_VALUE_STRING_TYPE [2, 0, 1, 97, 5, 0, 0, 0, 16] =
        .ok [0, 1, 97, 5, 0, 0, 0, 16] [2] from by decide]
    dsimp only
    rw [show script_data_string [0, 1, 97, 5, 0, 0, 0, 16] =
        .ok [5, 0, 0, 0, 16] [97] from by decide]
    dsimp only
    rw [show script_data_value [5, 0, 0, 0, 16] = .ok [0, 0, 0, 16] .Null from by
      rw [script_data_value]]
  have htag : flv_tag [18, 0, 0, 100, 0, 0, 0, 0, 0, 0, 0, 2, 0, 1, 97, 5, 0, 0, 0, 16] =
      .ok [0, 0, 0, 16]
        { header := { tag_type := .Script, data_size := 100,
                      timestamp := 0, stream_id := 0 },
          data := .Script { name := [97], value := .Null } } := by
    unfold flv_tag
    rw [show flv_tag_header [18, 0, 0, 100, 0, 0, 0, 0, 0, 0, 0, 2, 0, 1, 97, 5, 0, 0, 0, 16] =
        .ok [2, 0, 1, 97, 5, 0, 0, 0, 16]
          { tag_type := .Script, data_size := 100, timestamp := 0, stream_id := 0 }
        from by decide]
    dsimp only
    unfold flv_tag_data
    dsimp only
    rw [hst]
  have hpair : flv_tag_with_size
      [18, 0, 0, 100, 0, 0, 0, 0, 0, 0, 0, 2, 0, 1, 97, 5, 0, 0, 0, 16] =
      .ok []
        ({ header := { tag_type := .Script, data_size := 100,
                       timestamp := 0, stream_id := 0 },
           data := .Script { name := [97], value := .Null } }, 16) := by
    unfold flv_tag_with_size
    rw [htag]
    dsimp only
    rw [show be_bytes 4 [0, 0, 0, 16] = .ok [] 16 from by decide]
  have hnil : flv_file_body_tags [] = .ok [] ([] : List (FLVTag × Nat)) := by
    rw [flv_file_body_tags]
    rfl
  have htags : flv_file_body_tags
      [18, 0, 0, 100, 0, 0, 0, 0, 0, 0, 0, 2, 0, 1, 97, 5, 0, 0, 0, 16] =
      .ok []
        [({ header := { tag_type := .Script, data_size := 100,
                        timestamp := 0, stream_id := 0 },
            data := .Script { name := [97], value := .Null } }, 16)] := by
    rw [flv_file_body_tags]
    rw [hpair]
    dsimp only
    rw [dif_pos (by decide)]
    rw [hnil]
  refine ⟨?_, ?_, by decide⟩
  · unfold flv_file_body
    rw [show be_bytes 4
        [0, 0, 0, 0, 18, 0, 0, 100, 0, 0, 0, 0, 0, 0, 0, 2, 0, 1, 97, 5, 0, 0, 0, 16] =
        .ok [18, 0, 0, 100, 0, 0, 0, 0, 0, 0, 0, 2, 0, 1, 97, 5, 0, 0, 0, 16] 0
        from by decide]
    dsimp only
    rw [htags]
  · unfold script_tag
    rw [show tag_pattern SCRIPT_DATA_VALUE_STRING_TYPE [2, 0, 1, 97, 5] =
        .ok [0, 1, 97, 5] [2] from by decide]
    dsimp only
    rw [show script_data_string [0, 1, 97, 5] = .ok [5] [97] from by decide]
    dsimp only
    rw [show script_data_value [5] = .ok [] .Null from by rw [script_data_value]]

/-- C1 amended: for audio and video tags the payload decoder consumes exactly
`data_size` bytes (so the whole tag consumes `11 + data_size`); for script
tags the declared size is ignored entirely — `script_tag` does not depend on
its size argument — and the consumed count is determined by the script data
itself. -/
theorem C1_amended :
    (∀ (input rest : Bytes) (t : FLVTag), flv_tag input = .ok rest t →
       (∀ a, t.data = .Audio a →
          rest.length + 11 + t.header.data_size = input.length) ∧
       (∀ v, t.data = .Video v →
          rest.length + 11 + t.header.data_size = input.length)) ∧
    (∀ (input : Bytes) (s1 s2 : Nat), script_tag input s1 = script_tag input s2) := by
  refine ⟨?_, fun input s1 s2 => rfl⟩
  intro input rest t h
  unfold flv_tag at h
  cases hh : flv_tag_header input with
  | err e => rw [hh] at h; simp at h
  | ok r1 hd =>
    rw [hh] at h
    dsimp only at h
    obtain ⟨e1, l1⟩ := flv_tag_header_consumed hh
    cases hd2 : flv_tag_data r1 hd.tag_type hd.data_size with
    | err e => rw [hd2] at h; simp at h
    | ok r2 d =>
      rw [hd2] at h
      cases h
      unfold flv_tag_data at hd2
      constructor
      · intro a hdata
        cases htt : hd.tag_type with
        | Audio =>
          rw [htt] at hd2
          dsimp only at hd2
          cases ha : audio_tag r1 hd.data_size with
          | err e => rw [ha] at hd2; simp at hd2
          | ok r3 a2 =>
            rw [ha] at hd2
            cases hd2
            obtain ⟨hs1, hs2, hs3⟩ := audio_tag_consumed ha
            subst e1
            subst hs3
            simp [List.length_drop] at hs2 l1 ⊢
            omega
        | Video =>
          rw [htt] at hd2
          dsimp only at hd2
          cases hv : video_tag r1 hd.data_size with
          | err e => rw [hv] at hd2; simp at hd2
          | ok r3 v2 =>
            rw [hv] at hd2
            cases hd2
            simp at hdata
        | Script =>
          rw [htt] at hd2
          dsimp only at hd2
          cases hsc : script_tag r1 hd.data_size with
          | err e => rw [hsc] at hd2; simp at hd2
          | ok r3 s2 =>
            rw [hsc] at hd2
            cases hd2
            simp at hdata
      · intro v hdata
        cases htt : hd.tag_type with
        | Video =>
          rw [htt] at hd2
          dsimp only at hd2
          cases hv : video_tag r1 hd.data_size with
          | err e => rw [hv] at hd2; simp at hd2
          | ok r3 v2 =>
            rw [hv] at hd2
            cases hd2
            obtain ⟨hs1, hs2, hs3⟩ := video_tag_consumed hv
            subst e1
            subst hs3
            simp [List.length_drop] at hs2 l1 ⊢
            omega
        | Audio =>
          rw [htt] at hd2
          dsimp only at hd2
          cases ha : audio_tag r1 hd.data_size with
          | err e => rw [ha] at hd2; simp at hd2
          | ok r3 a2 =>
            rw [ha] at hd2
            cases hd2
            simp at hdata
        | Script =>
          rw [htt] at hd2
          dsimp only at hd2
          cases hsc : script_tag r1 hd.data_size with
          | err e => rw [hsc] at hd2; simp at hd2
          | ok r3 s2 =>
            rw [hsc] at hd2
            cases hd2
            simp at hdata

/-- Witness for C1 amended: a concrete 13-byte audio tag consumes exactly
11 + data_size = 13 bytes, and `script_tag` really does not depend on the
declared size. -/
theorem C1_witness :
    ([] : Bytes).length + 11 + 2 =
      ([8, 0, 0, 2, 0, 0, 0, 0, 0, 0, 0, 0x2f, 0xaa] : Bytes).length ∧
    script_tag [2, 0, 0, 5] 7 = script_tag [2, 0, 0, 5] 9 := by
  constructor
  · exact (C1_amended.1 [8, 0, 0, 2, 0, 0, 0, 0, 0, 0, 0, 0x2f, 0xaa] []
      { header := { tag_type := .Audio, data_size := 2, timestamp := 0, stream_id := 0 },
        data := .Audio
          { header := { sound_format := .MP3, sound_rate := ._44KHZ,
                        sound_size := ._16Bit, sound_type := .Stereo },
            body := { data := [0xaa] } } }
      (by rfl)).1 _ rfl
  · exact C1_amended.2 [2, 0, 0, 5] 7 9

/-- C5: For every Object or ECMAArray value, a successful decode stops
exactly at a `00 00 09` end marker: the marker sits in the input immediately
before the returned remainder, is consumed, and is excluded from the property
list.  Contrapositive: if the property stream never reaches the marker before
input end there is no successful decode — the parser fails instead of
returning a partial property list. -/
theorem C5_object_terminator :
    (∀ (input rest : Bytes) (props : List ScriptDataObjectProperty),
       script_data_object input = .ok rest props →
       ∃ k, input.drop k = 0x00 :: 0x00 :: 0x09 :: rest) ∧
    (∀ (input rest : Bytes) (props : List ScriptDataObjectProperty),
       script_data_ecma_array input = .ok rest props →
       ∃ k, input.drop k = 0x00 :: 0x00 :: 0x09 :: rest) := by
  constructor
  · intro input rest props h
    unfold script_data_object at h
    cases hp : script_data_object_properties input with
    | err e => rw [hp] at h; simp at h
    | ok r1 ps =>
      rw [hp] at h
      dsimp only at h
      cases hm : script_data_object_end_marker r1 with
      | err e => rw [hm] at h; simp at h
      | ok r2 mk2 =>
        rw [hm] at h
        cases h
        obtain ⟨k1, hk1, hd1⟩ := script_data_object_properties_consumed hp
        unfold script_data_object_end_marker at hm
        obtain ⟨hm1, hm2, hm3⟩ := tag_pattern_consumed hm
        have hOEM : OBJECT_END_MARKER.length = 3 := rfl
        rw [hOEM] at hm1 hm3
        refine ⟨k1, ?_⟩
        calc input.drop k1 = r1 := hd1.symm
          _ = r1.take 3 ++ r1.drop 3 := (List.take_append_drop 3 r1).symm
          _ = 0x00 :: 0x00 :: 0x09 :: rest := by
              rw [hm3, ← hm1]
              rfl
  · intro input rest props h
    unfold script_data_ecma_array at h
    cases hb : be_bytes 4 input with
    | err e => rw [hb] at h; simp at h
    | ok r0 len =>
      rw [hb] at h
      dsimp only at h
      obtain ⟨hb1, hb2⟩ := be_bytes_length hb
      cases hp : script_data_object_properties r0 with
      | err e => rw [hp] at h; simp at h
      | ok r1 ps =>
        rw [hp] at h
        dsimp only at h
        cases hm : script_data_object_end_marker r1 with
        | err e => rw [hm] at h; simp at h
        | ok r2 mk2 =>
          rw [hm] at h
          cases h
          obtain ⟨k1, hk1, hd1⟩ := script_data_object_properties_consumed hp
          unfold script_data_object_end_marker at hm
          obtain ⟨hm1, hm2, hm3⟩ := tag_pattern_consumed hm
          have hOEM : OBJECT_END_MARKER.length = 3 := rfl
          rw [hOEM] at hm1 hm3
          refine ⟨4 + k1, ?_⟩
          calc input.drop (4 + k1) = (input.drop 4).drop k1 := (List.drop_drop _ _ _).symm
            _ = r1 := by rw [← hb1]; exact hd1.symm
            _ = r1.take 3 ++ r1.drop 3 := (List.take_append_drop 3 r1).symm
            _ = 0x00 :: 0x00 :: 0x09 :: rest := by
                rw [hm3, ← hm1]
                rfl

/-- Witness for C5: a one-property object followed by the end marker and a
trailing byte decodes to exactly that property, and the marker is found
immediately before the remainder. -/
theorem C5_witness :
    script_data_object [0, 1, 97, 5, 0, 0, 9, 42] =
      .ok [42] [.mk [97] .Null] ∧
    (∃ k, ([0, 1, 97, 5, 0, 0, 9, 42] : Bytes).drop k =
      0x00 :: 0x00 :: 0x09 :: [42]) := by
  have hp1 : script_data_object_property [0, 1, 97, 5, 0, 0, 9, 42] =
      .ok [0, 0, 9, 42] (.mk [97] .Null) := by
    unfold script_data_object_property
    rw [show script_data_string [0, 1, 97, 5, 0, 0, 9, 42] =
        .ok [5, 0, 0, 9, 42] [97] from by decide]
    dsimp only
    rw [show script_data_value [5, 0, 0, 9, 42] = .ok [0, 0, 9, 42] .Null from by
      rw [script_data_value]]
  have hperr : script_data_object_property [0, 0, 9, 42] = .err .error := by
    unfold script_data_object_property
    rw [show script_data_string [0, 0, 9, 42] = .ok [9, 42] [] from by decide]
    dsimp only
    rw [show script_data_value [9, 42] = .err .error from by
      rw [script_data_value]
      all_goals decide]
  have hprops2 : script_data_object_properties [0, 0, 9, 42] = .ok [0, 0, 9, 42] [] := by
    rw [script_data_object_properties, hperr]
  have hprops1 : script_data_object_properties [0, 1, 97, 5, 0, 0, 9, 42] =
      .ok [0, 0, 9, 42] [.mk [97] .Null] := by
    rw [script_data_object_properties, hp1]
    dsimp only
    rw [dif_pos (by decide), hprops2]
  have hobj : script_data_object [0, 1, 97, 5, 0, 0, 9, 42] =
      .ok [42] [.mk [97] .Null] := by
    unfold script_data_object
    rw [hprops1]
    dsimp only
    rw [show script_data_object_end_marker [0, 0, 9, 42] = .ok [42] [0, 0, 9] from by
      unfold script_data_object_end_marker; decide]
  exact ⟨hobj, C5_object_terminator.1 _ _ _ hobj⟩

theorem script_data_value_count_length :
    ∀ (c : Nat) (input rest : Bytes) (vs : List ScriptDataValue),
      script_data_value_count c input = .ok rest vs → vs.length = c := by
  intro c
  induction c with
  | zero =>
    intro input rest vs h
    unfold script_data_value_count at h
    cases h
    rfl
  | succ k ihc =>
    intro input rest vs h
    unfold script_data_value_count at h
    cases hv : script_data_value input with
    | err e => rw [hv] at h; simp at h
    | ok r1 v =>
      rw [hv] at h
      dsimp only at h
      by_cases hc : r1.length < input.length
      · rw [dif_pos hc] at h
        cases hrec : script_data_value_count k r1 with
        | err e => rw [hrec] at h; simp at h
        | ok r2 vs2 =>
          rw [hrec] at h
          cases h
          simp [ihc _ _ _ hrec]
      · rw [dif_neg hc] at h; cases h

theorem be_bytes_val {k : Nat} {input rest : Bytes} {v : Nat}
    (h : be_bytes k input = .ok rest v) : v = bytes_to_nat (input.take k) := by
  unfold be_bytes at h
  by_cases hk : k ≤ input.length
  · rw [if_pos hk] at h; cases h; rfl
  · rw [if_neg hk] at h; cases h

/-- C6: A StrictArray decode always yields exactly the declared big-endian
u32 count of values (with no terminator, whatever bytes follow), and an
ECMAArray's leading u32 count is advisory only: the decode result does not
depend on it at all. -/
theorem C6_array_counts :
    (∀ (input rest : Bytes) (vs : List ScriptDataValue),
       script_data_strict_array input = .ok rest vs →
       vs.length = bytes_to_nat (input.take 4)) ∧
    (∀ c1 c2 rest : Bytes, c1.length = 4 → c2.length = 4 →
       script_data_ecma_array (c1 ++ rest) = script_data_ecma_array (c2 ++ rest)) := by
  constructor
  · intro input rest vs h
    unfold script_data_strict_array at h
    cases hb : be_bytes 4 input with
    | err e => rw [hb] at h; simp at h
    | ok r len =>
      rw [hb] at h
      dsimp only at h
      cases hc : script_data_value_count len r with
      | err e => rw [hc] at h; simp at h
      | ok r2 vs2 =>
        rw [hc] at h
        cases h
        rw [script_data_value_count_length _ _ _ _ hc, be_bytes_val hb]
  · intro c1 c2 rest h1 h2
    have hbe : ∀ c : Bytes, c.length = 4 →
        be_bytes 4 (c ++ rest) = .ok rest (bytes_to_nat ((c ++ rest).take 4)) := by
      intro c hc
      unfold be_bytes
      rw [if_pos (by simp [hc])]
      rw [← hc, List.drop_left]
    unfold script_data_ecma_array
    rw [hbe c1 h1, hbe c2 h2]

/-- Witness for C6: a StrictArray declaring 2 values decodes exactly 2 values
and stops, leaving trailing junk bytes untouched; two ECMAArrays differing
only in their advisory counts (99 versus 1, both over an empty property list)
decode identically. -/
theorem C6_witness :
    ([ScriptDataValue.Null, ScriptDataValue.Boolean true].length =
      bytes_to_nat (([0, 0, 0, 2, 5, 1, 1, 0xde, 0xad] : Bytes).take 4)) ∧
    script_data_ecma_array ([0, 0, 0, 99] ++ [0, 0, 9]) =
      script_data_ecma_array ([0, 0, 0, 1] ++ [0, 0, 9]) := by
  have hv1 : script_data_value [5, 1, 1, 0xde, 0xad] =
      .ok [1, 1, 0xde, 0xad] .Null := by rw [script_data_value]
  have hv2 : script_data_value [1, 1, 0xde, 0xad] =
      .ok [0xde, 0xad] (.Boolean true) := by
    rw [script_data_value]
    rfl
  have hc0 : script_data_value_count 0 [0xde, 0xad] = .ok [0xde, 0xad] [] := by
    rw [script_data_value_count]
  have hc1 : script_data_value_count 1 [1, 1, 0xde, 0xad] =
      .ok [0xde, 0xad] [.Boolean true] := by
    rw [script_data_value_count, hv2]
    dsimp only
    rw [dif_pos (by decide), hc0]
  have hc2 : script_data_value_count 2 [5, 1, 1, 0xde, 0xad] =
      .ok [0xde, 0xad] [.Null, .Boolean true] := by
    rw [script_data_value_count, hv1]
    dsimp only
    rw [dif_pos (by decide), hc1]
  have hstrict : script_data_strict_array [0, 0, 0, 2, 5, 1, 1, 0xde, 0xad] =
      .ok [0xde, 0xad] [.Null, .Boolean true] := by
    unfold script_data_strict_array
    rw [show be_bytes 4 [0, 0, 0, 2, 5, 1, 1, 0xde, 0xad] =
        .ok [5, 1, 1, 0xde, 0xad] 2 from by decide]
    dsimp only
    rw [hc2]
  exact ⟨C6_array_counts.1 _ _ _ hstrict,
    C6_array_counts.2 [0, 0, 0, 99] [0, 0, 0, 1] [0, 0, 9] (by decide) (by decide)⟩
